import Mathlib

/-!
Verification of the completion-detection and failure-recovery logic of
rich-results-script.js.  The embedding translates the four functions of the
source that carry the algorithmic content (parseArgs, handleRetryOnFailure,
retryOperation, waitForTestCompletion) and the phase structure of the
top-level workflow into pure Lean functions over an explicit model of the
rendered page: a page condition is the list of DOM elements together with the
four attributes the source ever inspects (tag name, class attribute,
aria-label attribute, visible text), and each page.evaluate call of the
source becomes one lookup in a stream of page conditions indexed by
observation count.
-/

deriving instance DecidableEq for Except

namespace RichResults

/-- Failure taxonomy of the script: each throw or exit site of the source is
tagged with the reason it surfaces. -/
inductive FailureReason
  | preconditionMissing
  | transientOperationFailure
  | remoteTransientError
  | deadlineExceeded
  deriving DecidableEq, Repr

/-- One rendered DOM element, as far as the source inspects it: tag name,
class attribute, aria-label attribute and visible text.  The page.evaluate
calls of the source only ever read these four pieces. -/
structure Element where
  tag : String
  className : String
  ariaLabel : String
  innerText : String
  deriving DecidableEq, Repr

/-- Bool test that pat occurs at the head of text. -/
def leadMatch : List Char → List Char → Bool
  | [], _ => true
  | _ :: _, [] => false
  | p :: ps, t :: ts => (p == t) && leadMatch ps ts

/-- Bool test that pat occurs contiguously anywhere inside text. -/
def hasSub : List Char → List Char → Bool
  | pat, [] => leadMatch pat []
  | pat, c :: cs => leadMatch pat (c :: cs) || hasSub pat cs

/-- Substring test on strings (case sensitive), modelling the CSS attribute
substring operator used by the querySelector calls of the source. -/
def containsSubstr (s pat : String) : Bool :=
  hasSub pat.data s.data

/-- ASCII lowercasing of a character sequence, modelling the case-insensitive
flag of the source regexes (whose patterns are pure ASCII). -/
def lcList (cs : List Char) : List Char :=
  cs.map Char.toLower

/-- Case-insensitive test for the transient-error text, modelling the regex
test of the source at lines 59-63 and 96-100: the pattern has no regex
metacharacters, so it matches exactly when the lowercased text contains the
lowercase pattern contiguously. -/
def swwMatch (s : String) : Bool :=
  hasSub "something went wrong".data (lcList s.data)

/-- ASCII word characters of the regex word-boundary metacharacter. -/
def isWordChar (c : Char) : Bool :=
  c.isAlphanum || c == '_'

/-- Boundary test against the character adjacent to a candidate match site
(none at the ends of the text).  Because the pattern TEST COMPLETE begins and
ends with word characters, a word boundary there holds exactly when the
adjacent text character is absent or is not a word character. -/
def boundaryOk : Option Char → Bool
  | none => true
  | some c => !isWordChar c

/-- Word-bounded match of pat at the head of text: pat occurs at the head and
the character following the occurrence, if any, is not a word character. -/
def wbHere : List Char → List Char → Bool
  | [], [] => true
  | c :: _, [] => !isWordChar c
  | [], _ :: _ => false
  | t :: ts, p :: ps => (p == t) && wbHere ts ps

/-- Search for a word-bounded occurrence of pat anywhere in text, carrying
the previously consumed character for the left boundary test. -/
def wbSearch (pat : List Char) : Option Char → List Char → Bool
  | prev, [] => boundaryOk prev && wbHere [] pat
  | prev, c :: cs => (boundaryOk prev && wbHere (c :: cs) pat) || wbSearch pat (some c) cs

/-- Case-insensitive word-bounded test for TEST COMPLETE (source line 157). -/
def testCompleteMatch (s : String) : Bool :=
  wbSearch "test complete".data none (lcList s.data)

/-- Source lines 59-63 and 96-100: the error modal counts as visible when
some div or span element carries text matching the error pattern.  The
querySelectorAll call of the source asks only for div and span elements. -/
def errorModalVisible (page : List Element) : Bool :=
  page.any fun el => (el.tag == "div" || el.tag == "span") && swwMatch el.innerText

/-- Modelled from the spec (section 4.2 wording, for comparison with the
source classification above): an error signal is text matching the pattern
anywhere in the visible text of the page, regardless of which element type
contains the text. -/
def errorSignalAnyElement (page : List Element) : Bool :=
  page.any fun el => swwMatch el.innerText

/-- Source lines 135-141: a div whose class contains LoadingSpinner or whose
aria-label contains Testing marks the test as still in progress. -/
def hasLoadingSpinner (page : List Element) : Bool :=
  page.any fun el =>
    el.tag == "div" && (containsSubstr el.className "LoadingSpinner" || containsSubstr el.ariaLabel "Testing")

/-- Source line 151: a button whose aria-label contains View details. -/
def isViewDetailsButton (el : Element) : Bool :=
  el.tag == "button" && containsSubstr el.ariaLabel "View details"

/-- Source line 154: a pre block. -/
def isPreBlock (el : Element) : Bool :=
  el.tag == "pre"

/-- Source lines 156-159: a span whose text matches TEST COMPLETE with word
boundaries, case-insensitively. -/
def isTestCompleteSpan (el : Element) : Bool :=
  el.tag == "span" && testCompleteMatch el.innerText

/-- Source lines 149-160: the three completion signals, ORed in the order
the source tests them; any single one suffices. -/
def resultsVisible (page : List Element) : Bool :=
  page.any isViewDetailsButton || page.any isPreBlock || page.any isTestCompleteSpan

/-- Recovery loop of handleRetryOnFailure (source lines 56-107).  pages idx
is the page condition at the idx-th page.evaluate of the error text; the
second argument counts the loop iterations still allowed.  Each iteration
observes the page; when the error text is absent the function returns at
once, otherwise it performs one recovery cycle (best-effort dismiss click,
refocus plus re-submit keypress, settle wait; these change no state of the
model) and continues.  When the loop budget is exhausted, one further
observation decides between throwing the repeated-transient-error failure
and returning.  The second component of the result counts the recovery
cycles performed. -/
def hrLoop (pages : Nat → List Element) : Nat → Nat → Except FailureReason Unit × Nat
  | idx, 0 =>
    if errorModalVisible (pages idx) then (Except.error FailureReason.remoteTransientError, 0)
    else (Except.ok (), 0)
  | idx, r + 1 =>
    if errorModalVisible (pages idx) then
      let rest := hrLoop pages (idx + 1) r
      (rest.1, rest.2 + 1)
    else (Except.ok (), 0)

/-- handleRetryOnFailure (source lines 56-107); the source default for
maxRetries is 5 and the workflow calls it with that default. -/
def handleRetryOnFailure (pages : Nat → List Element) (maxRetries : Nat) : Except FailureReason Unit × Nat :=
  hrLoop pages 0 maxRetries

/-- Poll loop of waitForTestCompletion (source lines 131-171).  pages n is
the page condition at the n-th poll tick; consecutive ticks are separated by
the fixed one-second sleep of the source, so the elapsed time since the
start captured on entry is 1000 * n ms at the start of tick n.  The deadline
is tested first, then the spinner, then the completion signals.  The second
component of the result is the tick index at which the loop stopped. -/
def waitLoop (pages : Nat → List Element) (timeout : Nat) (n : Nat) : Except FailureReason Unit × Nat :=
  if 1000 * n < timeout then
    if hasLoadingSpinner (pages n) then waitLoop pages timeout (n + 1)
    else if resultsVisible (pages n) then (Except.ok (), n)
    else waitLoop pages timeout (n + 1)
  else (Except.error FailureReason.deadlineExceeded, n)
termination_by timeout - 1000 * n
decreasing_by
  all_goals omega

/-- waitForTestCompletion (source lines 131-171): the poll loop started at
tick 0, that is with start = Date.now() captured on entry. -/
def waitForTestCompletion (pages : Nat → List Element) (timeout : Nat) : Except FailureReason Unit × Nat :=
  waitLoop pages timeout 0

/-- Fixed settle wait placed by the source between the submission keypress
and every later phase (source line 248), so the completion wait never begins
earlier than 3000 ms after submission. -/
def postSubmitSettleMs : Nat := 3000

/-- Absolute-time view of the completion wait: the source captures start =
Date.now() on entry to waitForTestCompletion (line 132), after the script
has already navigated, typed and slept; waitStart is that entry time
measured from task start, the n-th tick observes the page at absolute time
waitStart + 1000 * n, and the deadline test of the loop compares only the
elapsed time since waitStart against timeout. -/
def waitForTestCompletionAbs (pagesAt : Nat → List Element) (timeout waitStart : Nat) : Except FailureReason Unit × Nat :=
  waitForTestCompletion (fun n => pagesAt (waitStart + 1000 * n)) timeout

/-- One run of the retry helper (source lines 110-127): the final result,
how many times the wrapped operation ran, and the backoff delays waited
between consecutive runs, in order. -/
structure RetryRun (E A : Type) where
  result : Except E A
  execs : Nat
  delays : List Nat
  deriving Repr

/-- Loop of retryOperation: op gives the outcome of each run of the wrapped
operation, indexed from 0; the source attempt counter holds idx + 1 right
after run idx fails, so the source guard attempt > retries corresponds to an
exhausted budget, here the second argument remaining = retries - idx
reaching 0.  On a failure with budget left, the loop waits
delayMs * 2 ^ ((idx + 1) - 1) ms, the source backoff for the incremented
attempt counter, and runs the operation again. -/
def retryGo {E A : Type} (op : Nat → Except E A) (delayMs : Nat) : Nat → Nat → RetryRun E A
  | idx, 0 =>
    match op idx with
    | Except.ok a => ⟨Except.ok a, 1, []⟩
    | Except.error e => ⟨Except.error e, 1, []⟩
  | idx, remaining + 1 =>
    match op idx with
    | Except.ok a => ⟨Except.ok a, 1, []⟩
    | Except.error _ =>
      let backoff := delayMs * 2 ^ ((idx + 1) - 1)
      let rest := retryGo op delayMs (idx + 1) remaining
      ⟨rest.result, rest.execs + 1, backoff :: rest.delays⟩

/-- retryOperation (source lines 110-127): run the operation, retrying up to
retries further times with exponential backoff. -/
def retryOperation {E A : Type} (op : Nat → Except E A) (retries delayMs : Nat) : RetryRun E A :=
  retryGo op delayMs 0 retries

/-- Configuration record built by parseArgs (source lines 34-54). -/
structure Config where
  url : String
  x : Nat
  y : Nat
  width : Nat
  height : Nat
  output : String
  retries : Nat
  timeout : Nat
  deriving DecidableEq, Repr

/-- JS truthiness of the url argument: an absent value (undefined or null)
and the empty string are falsy; every other string is truthy. -/
def urlTruthy : Option String → Bool
  | none => false
  | some s => !s.isEmpty

/-- parseArgs (source lines 34-54): builds the fixed configuration of the
source and, when the url is falsy, fails at once (source: error print and
process exit 1) with the precondition-missing reason. -/
def parseArgs (inputUrl : Option String) : Except FailureReason Config :=
  if urlTruthy inputUrl then
    Except.ok ⟨inputUrl.getD "", 470, 230, 970, 560, "rich-results.png", 3, 60000⟩
  else Except.error FailureReason.preconditionMissing

/-- Remote interactions the script performs, for trace counting. -/
inductive RemoteEvent
  | navigation
  | observation
  | submission
  | recoveryCycle
  deriving DecidableEq, Repr

/-- Outcomes supplied by the remote world: what each navigation run and each
selector wait returns, and the page condition at each observation of the
recovery phase and of the completion-wait phase. -/
structure Env where
  gotoResult : Nat → Except String Unit
  selectorResult : Nat → Except String Unit
  recoveryPages : Nat → List Element
  waitPages : Nat → List Element

/-- Top-level workflow of the script (source lines 177-299) restricted to
the phases the spec covers: parse the input, navigate with retries, wait for
the input field with retries, submit the URL, run the error-recovery loop,
then the completion wait.  Alongside the result it returns the trace of
remote interactions performed, in order; the recovery phase takes one
observation per recovery cycle plus one final or clearing observation. -/
def runScript (inputUrl : Option String) (env : Env) : Except FailureReason Unit × List RemoteEvent :=
  match parseArgs inputUrl with
  | Except.error r => (Except.error r, [])
  | Except.ok cfg =>
    let nav := retryOperation env.gotoResult cfg.retries 1000
    match nav.result with
    | Except.error _ =>
      (Except.error FailureReason.transientOperationFailure,
        List.replicate nav.execs RemoteEvent.navigation)
    | Except.ok _ =>
      let sel := retryOperation env.selectorResult cfg.retries 1000
      match sel.result with
      | Except.error _ =>
        (Except.error FailureReason.transientOperationFailure,
          List.replicate nav.execs RemoteEvent.navigation ++
            List.replicate sel.execs RemoteEvent.observation)
      | Except.ok _ =>
        let hr := handleRetryOnFailure env.recoveryPages 5
        let evts := List.replicate nav.execs RemoteEvent.navigation ++
          List.replicate sel.execs RemoteEvent.observation ++
          [RemoteEvent.submission] ++
          List.replicate (hr.2 + 1) RemoteEvent.observation ++
          List.replicate hr.2 RemoteEvent.recoveryCycle
        match hr.1 with
        | Except.error _ => (Except.error FailureReason.remoteTransientError, evts)
        | Except.ok _ =>
          let w := waitForTestCompletion env.waitPages cfg.timeout
          match w.1 with
          | Except.error _ =>
            (Except.error FailureReason.deadlineExceeded,
              evts ++ List.replicate w.2 RemoteEvent.observation)
          | Except.ok _ =>
            (Except.ok (), evts ++ List.replicate (w.2 + 1) RemoteEvent.observation)

/-- When the first r observations all show the error text, the recovery loop
uses its whole budget and the one observation after the loop decides the
outcome. -/
theorem hrLoop_errorRun (pages : Nat → List Element) :
    ∀ r idx, (∀ i, i < r → errorModalVisible (pages (idx + i)) = true) →
      hrLoop pages idx r =
        (if errorModalVisible (pages (idx + r)) then (Except.error FailureReason.remoteTransientError, r)
         else (Except.ok (), r)) := by
  intro r
  induction r with
  | zero =>
    intro idx h
    simp [hrLoop]
  | succ r ih =>
    intro idx h
    have h0 : errorModalVisible (pages idx) = true := by
      have := h 0 (Nat.succ_pos r)
      simpa using this
    have hshift : ∀ i, i < r → errorModalVisible (pages (idx + 1 + i)) = true := by
      intro i hi
      have := h (i + 1) (by omega)
      have harith : idx + (i + 1) = idx + 1 + i := by omega
      rwa [harith] at this
    have harith2 : idx + 1 + r = idx + (r + 1) := by omega
    rw [hrLoop, if_pos h0, ih (idx + 1) hshift, harith2]
    by_cases hfin : errorModalVisible (pages (idx + (r + 1))) = true
    · simp [hfin]
    · simp [hfin]

/-- The recovery loop never performs more recovery cycles than its budget. -/
theorem hrLoop_cycles_le (pages : Nat → List Element) :
    ∀ r idx, (hrLoop pages idx r).2 ≤ r := by
  intro r
  induction r with
  | zero =>
    intro idx
    by_cases h : errorModalVisible (pages idx) = true <;> simp [hrLoop, h]
  | succ r ih =>
    intro idx
    by_cases h : errorModalVisible (pages idx) = true
    · rw [hrLoop, if_pos h]
      have := ih (idx + 1)
      simpa using Nat.succ_le_succ this
    · rw [hrLoop, if_neg h]
      simp

/-- When the error text clears at the k-th observation after k straight
error observations, and the loop budget is not yet exhausted, the loop
returns at once with exactly k recovery cycles performed. -/
theorem hrLoop_clearAt (pages : Nat → List Element) :
    ∀ k idx r, k < r → (∀ i, i < k → errorModalVisible (pages (idx + i)) = true) →
      errorModalVisible (pages (idx + k)) = false →
      hrLoop pages idx r = (Except.ok (), k) := by
  intro k
  induction k with
  | zero =>
    intro idx r hr hpre hclear
    match r, hr with
    | r + 1, _ =>
      have hidx : errorModalVisible (pages idx) = false := by simpa using hclear
      rw [hrLoop, if_neg (by simp [hidx])]
  | succ k ih =>
    intro idx r hr hpre hclear
    match r, hr with
    | r + 1, hr =>
      have h0 : errorModalVisible (pages idx) = true := by
        have := hpre 0 (Nat.succ_pos k)
        simpa using this
      have hshift : ∀ i, i < k → errorModalVisible (pages (idx + 1 + i)) = true := by
        intro i hi
        have := hpre (i + 1) (by omega)
        have harith : idx + (i + 1) = idx + 1 + i := by omega
        rwa [harith] at this
      have hclear2 : errorModalVisible (pages (idx + 1 + k)) = false := by
        have harith : idx + (k + 1) = idx + 1 + k := by omega
        rwa [harith] at hclear
      rw [hrLoop, if_pos h0, ih (idx + 1) r (by omega) hshift hclear2]

/-- C1: when every one of the maxRetries per-attempt observations and the
final post-loop observation shows the error text, handleRetryOnFailure ends
by throwing the repeated-transient-error failure, having performed exactly
its maxRetries recovery cycles; and no run of handleRetryOnFailure ever
performs more recovery cycles than its budget. -/
theorem claim_c1_errors_exhaust_budget (pages : Nat → List Element) (N : Nat)
    (h : ∀ i, i ≤ N → errorModalVisible (pages i) = true) :
    handleRetryOnFailure pages N = (Except.error FailureReason.remoteTransientError, N) ∧
    (∀ qs : Nat → List Element, ∀ M : Nat, (handleRetryOnFailure qs M).2 ≤ M) := by
  constructor
  · have hrun := hrLoop_errorRun pages N 0 (by intro i hi; simpa using h i (Nat.le_of_lt hi))
    have hfin : errorModalVisible (pages (0 + N)) = true := by simpa using h N (Nat.le_refl N)
    rw [handleRetryOnFailure, hrun, if_pos hfin]
  · intro qs M
    exact hrLoop_cycles_le qs M 0

/-- All-error page used by the C1 witness. -/
def errDivPage : List Element :=
  [⟨"div", "", "", "Something went wrong. Please try again later."⟩]

/-- Witness for C1 at the default budget of 5 and a constant error page. -/
theorem claim_c1_witness :
    handleRetryOnFailure (fun _ => errDivPage) 5 = (Except.error FailureReason.remoteTransientError, 5) :=
  (claim_c1_errors_exhaust_budget (fun _ => errDivPage) 5
    (fun i _ => show errorModalVisible errDivPage = true by decide)).1

/-- C6: when the error text is shown by the first k observations with k
strictly below the budget, and the observation after those shows no error
text, handleRetryOnFailure returns normally (the machine proceeds to
Waiting), having performed exactly the k recovery cycles that preceded the
clearing observation and none after it. -/
theorem claim_c6_cleared_proceeds (pages : Nat → List Element) (N k : Nat)
    (hk : k < N)
    (hpre : ∀ i, i < k → errorModalVisible (pages i) = true)
    (hclear : errorModalVisible (pages k) = false) :
    handleRetryOnFailure pages N = (Except.ok (), k) := by
  rw [handleRetryOnFailure]
  exact hrLoop_clearAt pages k 0 N hk (by intro i hi; simpa using hpre i hi) (by simpa using hclear)

/-- Page stream for the C6 and C10 witnesses: the error text is shown by
exactly the first two observations, then clears. -/
def twoErrorsPages : Nat → List Element :=
  fun i => if i < 2 then errDivPage else []

/-- Witness for C6: two error observations, then a clear one, with budget 5:
the run returns normally after exactly two recovery cycles. -/
theorem claim_c6_witness :
    handleRetryOnFailure twoErrorsPages 5 = (Except.ok (), 2) := by
  apply claim_c6_cleared_proceeds twoErrorsPages 5 2 (by omega)
  · intro i hi
    have : twoErrorsPages i = errDivPage := if_pos hi
    rw [this]
    decide
  · have : twoErrorsPages 2 = [] := by decide
    rw [this]
    decide

/-- C10: after a full run of the recovery loop (the error text shown at all
maxRetries in-loop observations), one further observation is taken and the
repeated-transient-error failure is thrown exactly when that final
observation still shows the error text; when it cleared during the last
settle interval the function instead returns normally with its maxRetries
recovery cycles performed. -/
theorem claim_c10_final_observation (pages : Nat → List Element) (N : Nat)
    (h : ∀ i, i < N → errorModalVisible (pages i) = true) :
    handleRetryOnFailure pages N =
      (if errorModalVisible (pages N) then (Except.error FailureReason.remoteTransientError, N)
       else (Except.ok (), N)) := by
  rw [handleRetryOnFailure]
  have := hrLoop_errorRun pages N 0 (by intro i hi; simpa using h i hi)
  simpa using this

/-- Witness for C10: budget 2, error text at the two in-loop observations,
cleared at the final one: the run returns normally with 2 cycles. -/
theorem claim_c10_witness :
    handleRetryOnFailure twoErrorsPages 2 = (Except.ok (), 2) := by
  have h := claim_c10_final_observation twoErrorsPages 2 (by
    intro i hi
    have : twoErrorsPages i = errDivPage := if_pos hi
    rw [this]
    decide)
  have h2 : errorModalVisible (twoErrorsPages 2) = false := by decide
  rw [h, if_neg (by simp [h2])]

/-- When no poll tick ever shows a completion signal, the poll loop ends in
the deadline failure, whatever the spinner shows. -/
theorem waitLoop_noSignal (pages : Nat → List Element) (timeout : Nat)
    (h : ∀ m, resultsVisible (pages m) = false) :
    ∀ k n, timeout ≤ 1000 * n + 1000 * k →
      (waitLoop pages timeout n).1 = Except.error FailureReason.deadlineExceeded := by
  intro k
  induction k with
  | zero =>
    intro n hn
    rw [waitLoop, if_neg (by omega)]
  | succ k ih =>
    intro n hn
    rw [waitLoop]
    by_cases hlt : 1000 * n < timeout
    · rw [if_pos hlt]
      by_cases hs : hasLoadingSpinner (pages n) = true
      · rw [if_pos hs]
        exact ih (n + 1) (by omega)
      · rw [if_neg hs, if_neg (by simp [h n]), ]
        exact ih (n + 1) (by omega)
    · rw [if_neg hlt]

/-- Whenever the poll loop ends in completion, the tick at which it ends
lies strictly before the deadline. -/
theorem waitLoop_complete_lt (pages : Nat → List Element) (timeout : Nat) :
    ∀ k n m, timeout ≤ 1000 * n + 1000 * k →
      waitLoop pages timeout n = (Except.ok (), m) → 1000 * m < timeout := by
  intro k
  induction k with
  | zero =>
    intro n m hn hw
    rw [waitLoop, if_neg (by omega)] at hw
    exact absurd (congrArg Prod.fst hw) (by simp)
  | succ k ih =>
    intro n m hn hw
    rw [waitLoop] at hw
    by_cases hlt : 1000 * n < timeout
    · rw [if_pos hlt] at hw
      by_cases hs : hasLoadingSpinner (pages n) = true
      · rw [if_pos hs] at hw
        exact ih (n + 1) m (by omega) hw
      · rw [if_neg hs] at hw
        by_cases hr : resultsVisible (pages n) = true
        · rw [if_pos hr] at hw
          have : n = m := congrArg Prod.snd hw
          omega
        · rw [if_neg hr] at hw
          exact ih (n + 1) m (by omega) hw
    · rw [if_neg hlt] at hw
      exact absurd (congrArg Prod.fst hw) (by simp)

/-- C2, amended: when no completion signal is ever observed at any poll
tick, waitForTestCompletion ends by throwing the deadline failure; the
elapsed time it compares against the timeout is measured from its own entry
(the start captured on entry, after submission and the settle wait), not
from task start. -/
theorem claim_c2_no_signal_times_out (pages : Nat → List Element) (timeout : Nat)
    (h : ∀ m, resultsVisible (pages m) = false) :
    (waitForTestCompletion pages timeout).1 = Except.error FailureReason.deadlineExceeded := by
  rw [waitForTestCompletion]
  exact waitLoop_noSignal pages timeout h timeout 0 (by omega)

/-- Witness for the amended C2: a stream of empty pages and a 1500 ms
deadline time out. -/
theorem claim_c2_witness :
    (waitForTestCompletion (fun _ => []) 1500).1 = Except.error FailureReason.deadlineExceeded :=
  claim_c2_no_signal_times_out (fun _ => []) 1500
    (fun m => show resultsVisible [] = false by decide)

/-- Page carrying a completion signal, used by the C2 counterexample and the
completion-side witnesses. -/
def completeSpanPage : List Element :=
  [⟨"span", "", "", "TEST COMPLETE"⟩]

/-- Absolute-time page stream for the C2 counterexample: no element at all
is rendered before absolute time 2000 ms, and the completion span appears
only from then on. -/
def lateCompletePages : Nat → List Element :=
  fun t => if 2000 ≤ t then completeSpanPage else []

/-- C2 counterexample, against the clause that elapsed time is measured from
task start: take the timeout to be 2000 ms and the task to start at absolute
time 0, so the deadline of the claim falls at absolute time 2000, and let
the completion signal first appear at that very deadline.  The completion
wait only begins at absolute time 3000 (the source sleeps a fixed 3000 ms
after submission before it runs, postSubmitSettleMs), so no completion
signal has been observed before the deadline elapses, and elapsed time
measured from task start reaches the timeout before any observation; still
the run returns Complete at its very first poll tick instead of failing
with the deadline failure. -/
theorem claim_c2_cex :
    waitForTestCompletionAbs lateCompletePages 2000 postSubmitSettleMs = (Except.ok (), 0) ∧
    2000 ≤ postSubmitSettleMs + 1000 * 0 ∧
    lateCompletePages 1999 = [] := by
  refine ⟨?_, by decide, by decide⟩
  rw [waitForTestCompletionAbs, waitForTestCompletion, waitLoop]
  norm_num
  decide

/-- C3: at every poll tick that the deadline has not yet cut off, the loop
remains in Waiting for that tick when a processing indicator is present,
returns normally (Complete) when no processing indicator is present and any
completion signal is, and remains in Waiting when neither kind of signal is
present; and the completion test is exactly the disjunction of the three
individual signals, so any single one suffices. -/
theorem claim_c3_tick_transitions (pages : Nat → List Element) (timeout n : Nat)
    (h : 1000 * n < timeout) :
    (hasLoadingSpinner (pages n) = true →
      waitLoop pages timeout n = waitLoop pages timeout (n + 1)) ∧
    (hasLoadingSpinner (pages n) = false → resultsVisible (pages n) = true →
      waitLoop pages timeout n = (Except.ok (), n)) ∧
    (hasLoadingSpinner (pages n) = false → resultsVisible (pages n) = false →
      waitLoop pages timeout n = waitLoop pages timeout (n + 1)) ∧
    (∀ page : List Element,
      resultsVisible page =
        (page.any isViewDetailsButton || page.any isPreBlock || page.any isTestCompleteSpan)) := by
  refine ⟨?_, ?_, ?_, fun _ => rfl⟩
  · intro hs
    conv_lhs => rw [waitLoop]
    rw [if_pos h, if_pos hs]
  · intro hs hr
    conv_lhs => rw [waitLoop]
    rw [if_pos h, if_neg (by simp [hs]), if_pos hr]
  · intro hs hr
    conv_lhs => rw [waitLoop]
    rw [if_pos h, if_neg (by simp [hs]), if_neg (by simp [hr])]

/-- Spinner page used by the C3 witness. -/
def spinnerPage : List Element :=
  [⟨"div", "fancy LoadingSpinner big", "", ""⟩]

/-- Witness for C3, exercising the spinner case and the completion case at
tick 0 of two concrete streams within a 5000 ms deadline. -/
theorem claim_c3_witness :
    waitLoop (fun _ => spinnerPage) 5000 0 = waitLoop (fun _ => spinnerPage) 5000 1 ∧
    waitLoop (fun _ => completeSpanPage) 5000 0 = (Except.ok (), 0) := by
  constructor
  · exact (claim_c3_tick_transitions (fun _ => spinnerPage) 5000 0 (by omega)).1
      (show hasLoadingSpinner spinnerPage = true by decide)
  · exact (claim_c3_tick_transitions (fun _ => completeSpanPage) 5000 0 (by omega)).2.1
      (show hasLoadingSpinner completeSpanPage = false by decide)
      (show resultsVisible completeSpanPage = true by decide)

/-- C9: the deadline is tested at the start of each poll tick, before the
page is observed, so once the elapsed time has reached the timeout the
deadline failure is thrown without a further observation even when a
completion signal is present on the page at that tick; consequently the
loop never returns Complete at a tick whose elapsed time has reached the
timeout. -/
theorem claim_c9_deadline_first (pages : Nat → List Element) (timeout n m : Nat) :
    (timeout ≤ 1000 * n → resultsVisible (pages n) = true →
      waitLoop pages timeout n = (Except.error FailureReason.deadlineExceeded, n)) ∧
    (waitLoop pages timeout 0 = (Except.ok (), m) → 1000 * m < timeout) := by
  constructor
  · intro hn hr
    rw [waitLoop, if_neg (by omega)]
  · intro hw
    exact waitLoop_complete_lt pages timeout timeout 0 m (by omega) hw

/-- Witness for C9: with a timeout of 0 the loop fails at once even though
the completion span is on the page, and a completion at tick 0 under a
1000 ms timeout indeed lies before the deadline. -/
theorem claim_c9_witness :
    waitLoop (fun _ => completeSpanPage) 0 0 = (Except.error FailureReason.deadlineExceeded, 0) ∧
    1000 * 0 < 1000 := by
  constructor
  · exact (claim_c9_deadline_first (fun _ => completeSpanPage) 0 0 0).1 (by omega)
      (show resultsVisible completeSpanPage = true by decide)
  · refine (claim_c9_deadline_first (fun _ => completeSpanPage) 1000 0 0).2 ?_
    rw [waitLoop]
    norm_num
    decide

/-- Shape of one retryGo run: the operation runs at least once and at most
remaining + 1 times, and the recorded delays are exactly the backoffs
delayMs * 2 ^ (idx + k), k = 0, 1, ..., one per run before the last. -/
theorem retryGo_shape {E A : Type} (op : Nat → Except E A) (delayMs : Nat) :
    ∀ remaining idx,
      1 ≤ (retryGo op delayMs idx remaining).execs ∧
      (retryGo op delayMs idx remaining).execs ≤ remaining + 1 ∧
      (retryGo op delayMs idx remaining).delays =
        (List.range ((retryGo op delayMs idx remaining).execs - 1)).map
          (fun k => delayMs * 2 ^ (idx + k)) := by
  intro remaining
  induction remaining with
  | zero =>
    intro idx
    cases hop : op idx <;> simp [retryGo, hop]
  | succ remaining ih =>
    intro idx
    cases hop : op idx with
    | ok a => simp [retryGo, hop]
    | error e =>
      obtain ⟨h1, h2, h3⟩ := ih (idx + 1)
      refine ⟨by simp [retryGo, hop], by simp only [retryGo, hop]; omega, ?_⟩
      simp only [retryGo, hop]
      rw [h3]
      obtain ⟨m, hmeq⟩ : ∃ m, (retryGo op delayMs (idx + 1) remaining).execs = m + 1 :=
        ⟨(retryGo op delayMs (idx + 1) remaining).execs - 1, by omega⟩
      rw [hmeq]
      have hr1 : m + 1 + 1 - 1 = m + 1 := by omega
      have hr2 : m + 1 - 1 = m := by omega
      rw [hr1, hr2, List.range_succ_eq_map, List.map_cons, List.map_map]
      refine congrArg₂ List.cons (by norm_num) ?_
      apply List.map_congr_left
      intro a _
      show delayMs * 2 ^ (idx + 1 + a) = delayMs * 2 ^ (idx + Nat.succ a)
      have harith : idx + 1 + a = idx + Nat.succ a := by omega
      rw [harith]

/-- C4: for maximum retry count R and base delay D, the wrapped operation
runs at most R + 1 times; R = 0 means exactly one run with no delay; the
delay recorded before retry k (1-based, list position k - 1) is exactly
D * 2 ^ (k - 1); and the delay sequence is monotonically non-decreasing. -/
theorem claim_c4_backoff_law {E A : Type} (op : Nat → Except E A) (R D : Nat) (_hD : 0 < D) :
    (retryOperation op R D).execs ≤ R + 1 ∧
    (R = 0 → (retryOperation op R D).execs = 1 ∧ (retryOperation op R D).delays = []) ∧
    (∀ i, ∀ hi : i < (retryOperation op R D).delays.length,
      (retryOperation op R D).delays.get ⟨i, hi⟩ = D * 2 ^ i) ∧
    (∀ i j, i ≤ j → ∀ hi : i < (retryOperation op R D).delays.length,
      ∀ hj : j < (retryOperation op R D).delays.length,
      (retryOperation op R D).delays.get ⟨i, hi⟩ ≤ (retryOperation op R D).delays.get ⟨j, hj⟩) := by
  obtain ⟨h1, h2, h3⟩ := retryGo_shape op D R 0
  have hkey : ∀ i, ∀ hi : i < (retryOperation op R D).delays.length,
      (retryOperation op R D).delays.get ⟨i, hi⟩ = D * 2 ^ i := by
    intro i hi
    show (retryGo op D 0 R).delays.get ⟨i, hi⟩ = D * 2 ^ i
    simp only [List.get_eq_getElem]
    rw [List.getElem_of_eq h3]
    simp
  refine ⟨h2, ?_, hkey, ?_⟩
  · intro hR
    subst hR
    refine ⟨?_, ?_⟩
    · show (retryGo op D 0 0).execs = 1
      omega
    show (retryGo op D 0 0).delays = []
    rw [h3]
    have : (retryGo op D 0 0).execs - 1 = 0 := by omega
    rw [this]
    rfl
  · intro i j hij hi hj
    rw [hkey i hi, hkey j hj]
    exact Nat.mul_le_mul le_rfl (Nat.pow_le_pow_right (by omega) hij)

/-- Operation that fails at every run, used by the C4 and C5 witnesses. -/
def opAlwaysFails : Nat → Except String Nat :=
  fun _ => Except.error "boom"

/-- Witness for C4: two retries and base delay 7 give at most three runs,
and the concrete run indeed records the delays 7 and 14. -/
theorem claim_c4_witness :
    (retryOperation opAlwaysFails 2 7).execs ≤ 3 ∧
    (retryOperation opAlwaysFails 2 7).delays = [7, 14] :=
  ⟨(claim_c4_backoff_law opAlwaysFails 2 7 (by omega)).1, by decide⟩

/-- When the operation fails at the first k runs and succeeds at run k
within budget, retryGo returns the success and stops after k + 1 runs. -/
theorem retryGo_success {E A : Type} (op : Nat → Except E A) (delayMs : Nat) (errOf : Nat → E) :
    ∀ k remaining idx a, k ≤ remaining →
      (∀ i, i < k → op (idx + i) = Except.error (errOf (idx + i))) →
      op (idx + k) = Except.ok a →
      (retryGo op delayMs idx remaining).result = Except.ok a ∧
      (retryGo op delayMs idx remaining).execs = k + 1 := by
  intro k
  induction k with
  | zero =>
    intro remaining idx a hk hpre hok
    have hok0 : op idx = Except.ok a := by simpa using hok
    cases remaining <;> simp [retryGo, hok0]
  | succ k ih =>
    intro remaining idx a hk hpre hok
    obtain ⟨rem, rfl⟩ : ∃ rem, remaining = rem + 1 := ⟨remaining - 1, by omega⟩
    have h0 : op idx = Except.error (errOf idx) := by simpa using hpre 0 (Nat.succ_pos k)
    have hshift : ∀ i, i < k → op (idx + 1 + i) = Except.error (errOf (idx + 1 + i)) := by
      intro i hi
      have := hpre (i + 1) (by omega)
      have harith : idx + (i + 1) = idx + 1 + i := by omega
      rwa [harith] at this
    have hok2 : op (idx + 1 + k) = Except.ok a := by
      have harith : idx + (k + 1) = idx + 1 + k := by omega
      rwa [harith] at hok
    have hrec := ih rem (idx + 1) a (by omega) hshift hok2
    obtain ⟨hres, hexe⟩ := hrec
    refine ⟨?_, ?_⟩
    · simp only [retryGo, h0]
      exact hres
    · simp only [retryGo, h0]
      omega

/-- When the operation fails at every run up to the budget, retryGo ends
with the error of the last run, after remaining + 1 runs. -/
theorem retryGo_allFail {E A : Type} (op : Nat → Except E A) (delayMs : Nat) (errOf : Nat → E) :
    ∀ remaining idx,
      (∀ i, i ≤ remaining → op (idx + i) = Except.error (errOf (idx + i))) →
      (retryGo op delayMs idx remaining).result = Except.error (errOf (idx + remaining)) ∧
      (retryGo op delayMs idx remaining).execs = remaining + 1 := by
  intro remaining
  induction remaining with
  | zero =>
    intro idx h
    have h0 : op idx = Except.error (errOf idx) := by simpa using h 0 (Nat.le_refl 0)
    simp [retryGo, h0]
  | succ remaining ih =>
    intro idx h
    have h0 : op idx = Except.error (errOf idx) := by simpa using h 0 (by omega)
    have hshift : ∀ i, i ≤ remaining → op (idx + 1 + i) = Except.error (errOf (idx + 1 + i)) := by
      intro i hi
      have := h (i + 1) (by omega)
      have harith : idx + (i + 1) = idx + 1 + i := by omega
      rwa [harith] at this
    obtain ⟨hres, hexe⟩ := ih (idx + 1) hshift
    have harith2 : idx + 1 + remaining = idx + (remaining + 1) := by omega
    refine ⟨?_, ?_⟩
    · simp only [retryGo, h0]
      rwa [harith2] at hres
    · simp only [retryGo, h0]
      omega

/-- C5: retryOperation returns the result of the first run that succeeds,
performing no further runs after it; and when every run up to the budget
fails, it propagates exactly the error of the final failed run, not a
wrapped one. -/
theorem claim_c5_result_propagation {E A : Type} (op : Nat → Except E A) (R D : Nat)
    (errOf : Nat → E) :
    (∀ k a, k ≤ R → (∀ i, i < k → op i = Except.error (errOf i)) → op k = Except.ok a →
      (retryOperation op R D).result = Except.ok a ∧ (retryOperation op R D).execs = k + 1) ∧
    ((∀ i, i ≤ R → op i = Except.error (errOf i)) →
      (retryOperation op R D).result = Except.error (errOf R) ∧
      (retryOperation op R D).execs = R + 1) := by
  constructor
  · intro k a hk hpre hok
    exact retryGo_success op D errOf k R 0 a hk
      (by intro i hi; simpa using hpre i hi) (by simpa using hok)
  · intro hfail
    have := retryGo_allFail op D errOf R 0 (by intro i hi; simpa using hfail i hi)
    simpa using this

/-- Operation that fails once, then succeeds, used by the C5 witness. -/
def opSucceedsSecond : Nat → Except String Nat :=
  fun i => if i = 0 then Except.error "e0" else Except.ok 42

/-- Witness for C5: one early failure then a success returns the success
after two runs; all-failing runs surface the original error after four. -/
theorem claim_c5_witness :
    ((retryOperation opSucceedsSecond 3 10).result = Except.ok 42 ∧
      (retryOperation opSucceedsSecond 3 10).execs = 2) ∧
    ((retryOperation opAlwaysFails 3 10).result = Except.error "boom" ∧
      (retryOperation opAlwaysFails 3 10).execs = 4) := by
  constructor
  · exact (claim_c5_result_propagation opSucceedsSecond 3 10 (fun _ => "e0")).1 1 42 (by omega)
      (by intro i hi; interval_cases i; rfl) (by rfl)
  · exact (claim_c5_result_propagation opAlwaysFails 3 10 (fun _ => "boom")).2 (by intro i _; rfl)

/-- leadMatch holds exactly when pat is an initial segment of text. -/
theorem leadMatch_iff (pat : List Char) :
    ∀ text, leadMatch pat text = true ↔ ∃ rest, text = pat ++ rest := by
  induction pat with
  | nil =>
    intro text
    simp [leadMatch]
  | cons p ps ih =>
    intro text
    cases text with
    | nil => simp [leadMatch]
    | cons c cs =>
      simp only [leadMatch, Bool.and_eq_true, beq_iff_eq, ih cs, List.cons_append]
      constructor
      · rintro ⟨hpc, rest, hrest⟩
        exact ⟨rest, by rw [hpc, hrest]⟩
      · rintro ⟨rest, hrest⟩
        simp only [List.cons.injEq] at hrest
        exact ⟨hrest.1.symm, rest, hrest.2⟩

/-- hasSub holds exactly when pat occurs contiguously inside text. -/
theorem hasSub_iff (pat : List Char) :
    ∀ text, hasSub pat text = true ↔ ∃ pre post, text = pre ++ (pat ++ post) := by
  intro text
  induction text with
  | nil =>
    simp only [hasSub, leadMatch_iff]
    constructor
    · rintro ⟨rest, h⟩
      exact ⟨[], rest, by simpa using h⟩
    · rintro ⟨pre, post, h⟩
      rw [eq_comm, List.append_eq_nil] at h
      obtain ⟨hpre, h2⟩ := h
      rw [List.append_eq_nil] at h2
      exact ⟨post, by rw [h2.1]; simp [h2.2]⟩
  | cons c cs ih =>
    simp only [hasSub, Bool.or_eq_true, ih, leadMatch_iff]
    constructor
    · rintro (⟨rest, h⟩ | ⟨pre, post, h⟩)
      · exact ⟨[], rest, by simpa using h⟩
      · exact ⟨c :: pre, post, by simp [h]⟩
    · rintro ⟨pre, post, h⟩
      cases pre with
      | nil => exact Or.inl ⟨post, by simpa using h⟩
      | cons d pre =>
        right
        simp only [List.cons_append, List.cons.injEq] at h
        exact ⟨pre, post, h.2⟩

/-- C7, amended: the transient-error classification used by the recovery
loop is true exactly when the error pattern occurs, case-insensitively, in
the visible text of some element that is a div or a span; text held by
elements of other types, with no div or span carrying it, is not seen. -/
theorem claim_c7_div_span_only (page : List Element) :
    errorModalVisible page = true ↔
      ∃ el, el ∈ page ∧ (el.tag = "div" ∨ el.tag = "span") ∧
        ∃ pre post, lcList el.innerText.data = pre ++ ("something went wrong".data ++ post) := by
  simp [errorModalVisible, swwMatch, hasSub_iff]

/-- Page whose only element carrying the error text is a paragraph. -/
def errorTextPPage : List Element :=
  [⟨"p", "", "", "Something went wrong"⟩]

/-- C7 counterexample: a page whose error text sits in a p element (with no
div or span carrying it) matches the pattern, and the spec-side predicate
over all element types sees it, yet the classification of the source is
false — so the classification is not independent of the element type. -/
theorem claim_c7_cex :
    errorModalVisible errorTextPPage = false ∧
    errorSignalAnyElement errorTextPPage = true ∧
    swwMatch "Something went wrong" = true := by decide

/-- C8: with the required url input absent or empty, the run fails at once
with the precondition-missing reason and an empty remote-interaction trace:
no navigation, observation, submission or recovery cycle happens. -/
theorem claim_c8_missing_url (inputUrl : Option String) (env : Env)
    (h : urlTruthy inputUrl = false) :
    runScript inputUrl env = (Except.error FailureReason.preconditionMissing, []) := by
  rw [runScript, parseArgs, if_neg (by simp [h])]

/-- Benign environment used by the C8 witness. -/
def emptyEnv : Env :=
  ⟨fun _ => Except.ok (), fun _ => Except.ok (), fun _ => [], fun _ => []⟩

/-- Witness for C8 at the empty-string url. -/
theorem claim_c8_witness :
    runScript (some "") emptyEnv = (Except.error FailureReason.preconditionMissing, []) :=
  claim_c8_missing_url (some "") emptyEnv (by decide)

end RichResults
